import Mathlib

/-!
Shallow embedding of the packetization layer of `common/JackNetTool.h`
(JACK network transport): session/header wire structures, the
cycle→sub-cycle sizing logic of `JackPortList` / `JackOptimizedPortList`,
the active-port set encoding, and the per-sub-cycle render paths.

Machine integers are modelled as `Nat` (unsigned fields) and `Int`
(signed fields such as `fLastSubCycle`); 32-bit byte swapping is modelled
explicitly; the float `powf/log` computation of the sub-period size is
modelled by its exact-arithmetic value `2 ^ log2floor x`, which agrees with
the C code in the regime the claims quantify over (packet payload holding
at least one sample per channel, so the log argument is ≥ 1).
-/

namespace JackNet

/-- `sizeof(jack_default_audio_sample_t)`, i.e. `sizeof(float)` = 4 bytes. -/
def sampleSize : Nat := 4

/-- `sizeof(packet_header_t)`: 7+1+1 chars, 3 bytes padding to align the
seven `uint32_t` fields, then 7*4 bytes, total 40. -/
def headerSize : Nat := 40

/-- `NET_PACKET_ERROR` from `JackNetTool.h`. -/
def NET_PACKET_ERROR : Int := -2

/-- Fuel-based floor of the base-2 logarithm (`log2Aux n n` computes
⌊log₂ n⌋ for n ≥ 1); structurally recursive so that the kernel can
evaluate it on concrete inputs. -/
def log2Aux : Nat → Nat → Nat
  | 0, _ => 0
  | fuel + 1, n => if 2 ≤ n then log2Aux fuel (n / 2) + 1 else 0

/-- ⌊log₂ n⌋: the exact value of the C expression
`(int)(log((float)n) / log(2.))` in the regime n ≥ 1 that the claims
quantify over. -/
def log2floor (n : Nat) : Nat := log2Aux n n

/-- Byte reversal of a 32-bit value: models `htonl`/`ntohl` on a
little-endian host (both are the same byte swap). -/
def bswap32 (x : Nat) : Nat :=
  (x % 256) * 16777216 + (x / 256 % 256) * 65536 +
    (x / 65536 % 256) * 256 + (x / 16777216 % 256)

/-- `struct _session_params`: character/string fields are kept as raw byte
lists (never byte-swapped), every 32-bit integer field as a `Nat`
(channel counts are `int32_t` in C but always non-negative in a valid
session). -/
structure SessionParams where
  fPacketType : List Nat
  fProtocolVersion : Nat
  fPacketID : Nat
  fName : List Nat
  fMasterNetName : List Nat
  fSlaveNetName : List Nat
  fMtu : Nat
  fID : Nat
  fTransportSync : Nat
  fSendAudioChannels : Nat
  fReturnAudioChannels : Nat
  fSendMidiChannels : Nat
  fReturnMidiChannels : Nat
  fSampleRate : Nat
  fPeriodSize : Nat
  fSampleEncoder : Nat
  fKBps : Nat
  fSlaveSyncMode : Nat
  fNetworkLatency : Nat
  deriving DecidableEq

/-- `struct _packet_header`: the 7-char tag and the two single chars are
kept as-is, the seven `uint32_t` fields as `Nat`. -/
structure PacketHeader where
  fPacketType : List Nat
  fDataType : Nat
  fDataStream : Nat
  fID : Nat
  fNumPacket : Nat
  fPacketSize : Nat
  fActivePorts : Nat
  fCycle : Nat
  fSubCycle : Nat
  fIsLastPckt : Nat
  deriving DecidableEq

/-- A slot of the `fPortBuffer` pointer array: `null` is a NULL pointer,
`marker` is the `(sample_t*)-1` sentinel written by
`ActivePortsFromNetwork`, `buf` is a real buffer with its sample data
(samples are opaque 32-bit patterns, modelled as `Nat`). -/
inductive PortBuf where
  | null : PortBuf
  | marker : PortBuf
  | buf : List Nat → PortBuf
  deriving DecidableEq

/-- Pointer truthiness of a `fPortBuffer` entry (`if (fPortBuffer[i])`):
both a real buffer and the `-1` sentinel are non-null. -/
def PortBuf.isActive : PortBuf → Bool
  | PortBuf.null => false
  | PortBuf.marker => true
  | PortBuf.buf _ => true

/-- State of a `JackPortList` / `JackOptimizedPortList` object
(`JackOptimizedPortList` adds no fields, only overrides methods). -/
structure JackPortList where
  fPeriodSize : Nat
  fSubPeriodSize : Nat
  fSubPeriodBytesSize : Nat
  fPortBuffer : List PortBuf
  fPacketSize : Nat
  fNPorts : Nat
  fCycleSize : Nat
  fCycleDuration : Rat
  fLastSubCycle : Int
  deriving DecidableEq

/-- The sub-period sizing expression that appears three times in the
source (`JackPortList` constructor, `JackOptimizedPortList::GetNumPackets`
and the receive path of `JackOptimizedPortList::RenderFromNetwork`):
`period = powf(2, (int)(log(packetSize / (channels * sizeof(sample_t))) / log 2))`
clamped to the period size, with the whole period used when there is no
channel to size against.  The float computation is modelled by its exact
value: the largest power of two not exceeding the quotient. -/
def subPeriodOf (packetSize channels periodSize : Nat) : Nat :=
  if channels = 0 then
    periodSize
  else
    let period := 2 ^ log2floor (packetSize / (channels * sampleSize))
    if period > periodSize then periodSize else period

/-- `JackPortList::JackPortList(session_params_t*, uint32_t)`. -/
def JackPortList.construct (params : SessionParams) (nports : Nat) : JackPortList :=
  let packetSize := params.fMtu - headerSize
  let sps :=
    if params.fSendAudioChannels = 0 ∧ params.fReturnAudioChannels = 0 then
      params.fPeriodSize
    else
      let period := 2 ^ log2floor (packetSize /
        (max params.fReturnAudioChannels params.fSendAudioChannels * sampleSize))
      if period > params.fPeriodSize then params.fPeriodSize else period
  { fPeriodSize := params.fPeriodSize
    fSubPeriodSize := sps
    fSubPeriodBytesSize := sps * sampleSize
    fPortBuffer := List.replicate nports PortBuf.null
    fPacketSize := packetSize
    fNPorts := nports
    fCycleSize := params.fMtu * (params.fPeriodSize / sps)
    fCycleDuration := (sps : Rat) / (params.fSampleRate : Rat)
    fLastSubCycle := -1 }

/-- `JackPortList::SetBuffer`. -/
def JackPortList.SetBuffer (s : JackPortList) (index : Nat) (buffer : PortBuf) : JackPortList :=
  { s with fPortBuffer := s.fPortBuffer.set index buffer }

/-- `JackPortList::GetNumPackets` (non-optimized: pure read). -/
def JackPortList.GetNumPackets (s : JackPortList) : Nat :=
  s.fPeriodSize / s.fSubPeriodSize

/-- `JackPortList::GetCycleSize`. -/
def JackPortList.GetCycleSize (s : JackPortList) : Nat :=
  s.fCycleSize

/-- `JackPortList::GetCycleDuration`. -/
def JackPortList.GetCycleDuration (s : JackPortList) : Rat :=
  s.fCycleDuration

/-- The active-port count loop at the head of
`JackOptimizedPortList::GetNumPackets`: number of non-null entries of the
`fNPorts`-element pointer array. -/
def JackPortList.countActivePorts (s : JackPortList) : Nat :=
  ((List.range s.fNPorts).filter
    (fun i => (s.fPortBuffer.getD i PortBuf.null).isActive)).length

/-- `JackOptimizedPortList::GetNumPackets`: recounts active ports, writes
`fSubPeriodSize` / `fSubPeriodBytesSize` (the latter reserving 4 bytes for
the port index), returns the packet count.  Returns the updated object
state together with the returned value. -/
def JackOptimizedPortList.GetNumPackets (s : JackPortList) : JackPortList × Nat :=
  let active_ports := s.countActivePorts
  let sps := subPeriodOf s.fPacketSize active_ports s.fPeriodSize
  ({ s with
      fSubPeriodSize := sps
      fSubPeriodBytesSize := sps * sampleSize + 4 },
    s.fPeriodSize / sps)

/-- Slice `len` samples of `l` starting at sample offset `off`
(models a `memcpy` source region). -/
def sliceN (l : List Nat) (off len : Nat) : List Nat :=
  (l.drop off).take len

/-- Overwrite `dst[off .. off+src.length)` with `src`
(models a `memcpy` destination region; all uses stay in bounds). -/
def writeSlice (dst : List Nat) (off : Nat) (src : List Nat) : List Nat :=
  dst.take off ++ src ++ dst.drop (off + src.length)

/-- Write `src` into the port buffer at index `idx`, at sample offset
`off`.  The C code would fault writing through a NULL or `-1` pointer;
those cases are never exercised by the inputs considered here and leave
the state unchanged in the model. -/
def writeToPort (bufs : List PortBuf) (idx off : Nat) (src : List Nat) : List PortBuf :=
  match bufs.getD idx PortBuf.null with
  | PortBuf.buf d => bufs.set idx (PortBuf.buf (writeSlice d off src))
  | _ => bufs

/-- The copy loop of `JackPortList::RenderFromNetwork` (little-endian
branch): for every port `i < nports`,
`memcpy(fPortBuffer[i] + sub_cycle*fSubPeriodSize, net + i*fSubPeriodBytesSize, fSubPeriodBytesSize)`;
`spsSamples = fSubPeriodBytesSize / sizeof(float)` samples are moved per
port.  `swap` post-processes each sample (`id` on little-endian,
`SwapFloat` on big-endian). -/
def copyAllPorts (bufs : List PortBuf) (net : List Nat)
    (nports subOff spsSamples : Nat) (swap : Nat → Nat) : List PortBuf :=
  (List.range nports).foldl
    (fun acc i =>
      writeToPort acc i subOff ((sliceN net (i * spsSamples) spsSamples).map swap))
    bufs

/-- `JackPortList::RenderFromNetwork` (little-endian branch): copy the
packet into every port, then flag a sub-cycle discontinuity as
`NET_PACKET_ERROR` and resynchronize `fLastSubCycle` unconditionally.
Returns the updated state and the `int` result. -/
def JackPortList.RenderFromNetwork (s : JackPortList) (net : List Nat)
    (cycle sub_cycle : Nat) (port_num : Nat) : JackPortList × Int :=
  let bufs := copyAllPorts s.fPortBuffer net s.fNPorts
    (sub_cycle * s.fSubPeriodSize) (s.fSubPeriodBytesSize / sampleSize) id
  let res : Int :=
    if (sub_cycle : Int) ≠ s.fLastSubCycle + 1 then NET_PACKET_ERROR else 0
  ({ s with fPortBuffer := bufs, fLastSubCycle := (sub_cycle : Int) }, res)

/-- `JackPortList::SwapFloat` (big-endian branch): byte reversal of the
IEEE-754 bit pattern. -/
def SwapFloat (f : Nat) : Nat := bswap32 f

/-- `JackPortList::RenderFromNetwork` (big-endian branch): identical to
the little-endian branch except every sample goes through `SwapFloat`. -/
def JackPortList.RenderFromNetworkBE (s : JackPortList) (net : List Nat)
    (cycle sub_cycle : Nat) (port_num : Nat) : JackPortList × Int :=
  let bufs := copyAllPorts s.fPortBuffer net s.fNPorts
    (sub_cycle * s.fSubPeriodSize) (s.fSubPeriodBytesSize / sampleSize) SwapFloat
  let res : Int :=
    if (sub_cycle : Int) ≠ s.fLastSubCycle + 1 then NET_PACKET_ERROR else 0
  ({ s with fPortBuffer := bufs, fLastSubCycle := (sub_cycle : Int) }, res)

/-- `JackPortList::RenderToJackPorts` (little-endian branch): resets
`fLastSubCycle` to -1 for the next cycle. -/
def JackPortList.RenderToJackPorts (s : JackPortList) : JackPortList :=
  { s with fLastSubCycle := -1 }

/-- `JackPortList::RenderToJackPorts` (big-endian branch): the body is
empty in the source — `fLastSubCycle` is NOT reset. -/
def JackPortList.RenderToJackPortsBE (s : JackPortList) : JackPortList :=
  s

/-- The `sub_cycle == 0` cleanup loop of
`JackOptimizedPortList::RenderFromNetwork`:
`memset(fPortBuffer[i], 0, fPeriodSize * sizeof(sample_t))` on every
non-null port. -/
def zeroActivePorts (bufs : List PortBuf) (periodSize : Nat) : List PortBuf :=
  bufs.map (fun b =>
    match b with
    | PortBuf.buf _ => PortBuf.buf (List.replicate periodSize 0)
    | other => other)

/-- The copy loop of `JackOptimizedPortList::RenderFromNetwork`: the
network buffer is a sequence of slots `(port index word, samples)`.  For
each slot position `i < port_num` the code reads the target index
`active_port` from the slot, but guards the copy on
`fPortBuffer[port_index]` — the slot POSITION, not the target — and then
writes into `fPortBuffer[active_port]`; this asymmetry is kept exactly as
in the source. -/
def optCopyLoop (bufs : List PortBuf) (net : List (Nat × List Nat))
    (port_num sub_cycle sps : Nat) : List PortBuf :=
  (List.range port_num).foldl
    (fun acc i =>
      let slot := net.getD i (0, [])
      if (acc.getD i PortBuf.null).isActive then
        writeToPort acc slot.1 (sub_cycle * sps) (slot.2.take sps)
      else acc)
    bufs

/-- `JackOptimizedPortList::RenderFromNetwork` (little-endian branch):
zero all connected ports at sub-cycle 0; then — only when `port_num > 0`
— recompute the sub-period size from the header's `port_num`, run the
copy loop, flag a sub-cycle discontinuity and resynchronize
`fLastSubCycle`.  When `port_num == 0` neither the check nor the
resynchronization happens. -/
def JackOptimizedPortList.RenderFromNetwork (s : JackPortList)
    (net : List (Nat × List Nat)) (cycle sub_cycle : Nat) (port_num : Nat) :
    JackPortList × Int :=
  let bufs0 :=
    if sub_cycle = 0 then zeroActivePorts s.fPortBuffer s.fPeriodSize
    else s.fPortBuffer
  if 0 < port_num then
    let sub_period_size := subPeriodOf s.fPacketSize port_num s.fPeriodSize
    let bufs1 := optCopyLoop bufs0 net port_num sub_cycle sub_period_size
    let res : Int :=
      if (sub_cycle : Int) ≠ s.fLastSubCycle + 1 then NET_PACKET_ERROR else 0
    ({ s with fPortBuffer := bufs1, fLastSubCycle := (sub_cycle : Int) }, res)
  else
    ({ s with fPortBuffer := bufs0 }, 0)

/-- `JackOptimizedPortList::RenderToNetwork` (little-endian branch): for
each connected port append one slot carrying the port index and
`fSubPeriodBytesSize - 4` bytes (= `fSubPeriodSize` samples) of its data;
returns the slot list and the final `port_num`.  Reading through the
`-1` sentinel would fault in C; such states are not exercised and yield
an empty payload in the model. -/
def JackOptimizedPortList.RenderToNetwork (s : JackPortList) (sub_cycle : Nat) :
    List (Nat × List Nat) × Nat :=
  let sps := (s.fSubPeriodBytesSize - 4) / sampleSize
  let slots := (List.range s.fNPorts).foldl
    (fun acc i =>
      match s.fPortBuffer.getD i PortBuf.null with
      | PortBuf.null => acc
      | PortBuf.marker => acc ++ [(i, [])]
      | PortBuf.buf d => acc ++ [(i, sliceN d (sub_cycle * s.fSubPeriodSize) sps)])
    []
  (slots, slots.length)

/-- The value actually stored in one 16-bit wire slot by
`JackOptimizedPortList::ActivePortsToNetwork`: the port index converted
to a signed `short`. -/
def toInt16 (x : Nat) : Int :=
  if x % 65536 < 32768 then ((x % 65536 : Nat) : Int)
  else ((x % 65536 : Nat) : Int) - 65536

/-- The loop body of `JackOptimizedPortList::ActivePortsToNetwork`,
modelled as structural recursion over the `fNPorts`-entry pointer array
with `i` the current port index: each connected port appends its index
(as a signed 16-bit value) to the network buffer. -/
def encodeActivePorts : List PortBuf → Nat → List Int
  | [], _ => []
  | b :: rest, i =>
      if b.isActive then toInt16 i :: encodeActivePorts rest (i + 1)
      else encodeActivePorts rest (i + 1)

/-- `JackOptimizedPortList::ActivePortsToNetwork`: returns the encoded
16-bit index list and the resulting `port_num`. -/
def JackOptimizedPortList.ActivePortsToNetwork (s : JackPortList) :
    List Int × Nat :=
  let net := encodeActivePorts s.fPortBuffer 0
  (net, net.length)

/-- The `assert(port_num < 512)` executed after each appended port in
`ActivePortsToNetwork`, replayed over the same loop: `cnt` is the running
`port_num` before the current entry; the function is `true` exactly when
every executed assertion holds. -/
def activePortsAssertOk : List PortBuf → Nat → Bool
  | [], _ => true
  | b :: rest, cnt =>
      if b.isActive then
        decide (cnt + 1 < 512) && activePortsAssertOk rest (cnt + 1)
      else activePortsAssertOk rest cnt

/-- Number of non-null entries of a pointer array (list form). -/
def countActive (bufs : List PortBuf) : Nat :=
  (bufs.filter (fun b => b.isActive)).length

/-- The per-entry body of `JackOptimizedPortList::ActivePortsFromNetwork`:
a received index marks its port with the `-1` sentinel when it lies in
`[0, fNPorts)`, and is reported (`jack_error`) and skipped otherwise. -/
def activePortStep (nports : Nat) (bufs : List PortBuf) (v : Int) : List PortBuf :=
  if 0 ≤ v ∧ v < (nports : Int) then bufs.set v.toNat PortBuf.marker
  else bufs

/-- `JackOptimizedPortList::ActivePortsFromNetwork`: NULL out every port,
then process the first `port_num` received 16-bit indices. -/
def JackOptimizedPortList.ActivePortsFromNetwork (s : JackPortList)
    (net : List Int) (port_num : Nat) : JackPortList :=
  let cleared := s.fPortBuffer.map (fun _ => PortBuf.null)
  { s with fPortBuffer := (net.take port_num).foldl (activePortStep s.fNPorts) cleared }

/-- Modelled from the spec: `SessionParamsHToN` is implemented in
`common/JackNetTool.cpp`, which is not among the provided sources; per
spec §4.1/§6 every multi-byte integer field is converted between host and
network byte order and character/string fields are copied unchanged. -/
def SessionParamsHToN (p : SessionParams) : SessionParams :=
  { p with
    fPacketID := bswap32 p.fPacketID
    fMtu := bswap32 p.fMtu
    fID := bswap32 p.fID
    fTransportSync := bswap32 p.fTransportSync
    fSendAudioChannels := bswap32 p.fSendAudioChannels
    fReturnAudioChannels := bswap32 p.fReturnAudioChannels
    fSendMidiChannels := bswap32 p.fSendMidiChannels
    fReturnMidiChannels := bswap32 p.fReturnMidiChannels
    fSampleRate := bswap32 p.fSampleRate
    fPeriodSize := bswap32 p.fPeriodSize
    fSampleEncoder := bswap32 p.fSampleEncoder
    fKBps := bswap32 p.fKBps
    fSlaveSyncMode := bswap32 p.fSlaveSyncMode
    fNetworkLatency := bswap32 p.fNetworkLatency }

/-- Modelled from the spec: `SessionParamsNToH`, the inverse direction;
on either endianness the network⇄host transform is the same byte swap
per 32-bit field (identity swap on a big-endian host — the round-trip law
is then trivial, so the little-endian swap is the interesting case
modelled here). -/
def SessionParamsNToH (p : SessionParams) : SessionParams :=
  SessionParamsHToN p

/-- Modelled from the spec: `PacketHeaderHToN` (implementation in
`common/JackNetTool.cpp`, absent from the provided sources): every
`uint32_t` field byte-swapped, the character fields copied unchanged. -/
def PacketHeaderHToN (h : PacketHeader) : PacketHeader :=
  { h with
    fID := bswap32 h.fID
    fNumPacket := bswap32 h.fNumPacket
    fPacketSize := bswap32 h.fPacketSize
    fActivePorts := bswap32 h.fActivePorts
    fCycle := bswap32 h.fCycle
    fSubCycle := bswap32 h.fSubCycle
    fIsLastPckt := bswap32 h.fIsLastPckt }

/-- Modelled from the spec: `PacketHeaderNToH`, same per-field swap. -/
def PacketHeaderNToH (h : PacketHeader) : PacketHeader :=
  PacketHeaderHToN h

/-- All 32-bit integer fields in range (a session params value as it can
exist in the C struct). -/
def ValidSessionParams (p : SessionParams) : Prop :=
  p.fPacketID < 4294967296 ∧ p.fMtu < 4294967296 ∧ p.fID < 4294967296 ∧
  p.fTransportSync < 4294967296 ∧ p.fSendAudioChannels < 4294967296 ∧
  p.fReturnAudioChannels < 4294967296 ∧ p.fSendMidiChannels < 4294967296 ∧
  p.fReturnMidiChannels < 4294967296 ∧ p.fSampleRate < 4294967296 ∧
  p.fPeriodSize < 4294967296 ∧ p.fSampleEncoder < 4294967296 ∧
  p.fKBps < 4294967296 ∧ p.fSlaveSyncMode < 4294967296 ∧
  p.fNetworkLatency < 4294967296

/-- All 32-bit integer fields in range for a packet header. -/
def ValidPacketHeader (h : PacketHeader) : Prop :=
  h.fID < 4294967296 ∧ h.fNumPacket < 4294967296 ∧ h.fPacketSize < 4294967296 ∧
  h.fActivePorts < 4294967296 ∧ h.fCycle < 4294967296 ∧
  h.fSubCycle < 4294967296 ∧ h.fIsLastPckt < 4294967296

/-- Convenience constructor for concrete session parameter values. -/
def testParams (mtu send ret rate ps : Nat) : SessionParams :=
  { fPacketType := [], fProtocolVersion := 4, fPacketID := 0, fName := [],
    fMasterNetName := [], fSlaveNetName := [], fMtu := mtu, fID := 1,
    fTransportSync := 0, fSendAudioChannels := send, fReturnAudioChannels := ret,
    fSendMidiChannels := 0, fReturnMidiChannels := 0, fSampleRate := rate,
    fPeriodSize := ps, fSampleEncoder := 0, fKBps := 0, fSlaveSyncMode := 0,
    fNetworkLatency := 0 }

/-- Feed a sequence of sub-cycle indices to
`JackPortList::RenderFromNetwork`, collecting the returned statuses. -/
def feedSubCycles (s : JackPortList) (net : List Nat) (subs : List Nat) :
    JackPortList × List Int :=
  subs.foldl
    (fun acc sub =>
      let r := JackPortList.RenderFromNetwork acc.1 net 0 sub 0
      (r.1, acc.2 ++ [r.2]))
    (s, [])

/-- C1/C7 concrete scenario parameters: MTU 1500, 2 channels each way,
period 1024. -/
def paramsC1 : SessionParams := testParams 1500 2 2 48000 1024

/-- C1 concrete state: the constructed port list with 2 connected ports
(the pointer values alone drive the sizing, so sentinels suffice). -/
def stateC1 : JackPortList :=
  ((JackPortList.construct paramsC1 2).SetBuffer 0 PortBuf.marker).SetBuffer 1
    PortBuf.marker

/-- C1 counterexample parameters: MTU 1500, 4 channels, period 96 (not a
power of two). -/
def paramsC1x : SessionParams := testParams 1500 4 4 48000 96

/-- C2 scenario parameters: MTU 56 (packet payload 16 bytes), 1 channel,
period 32, so the sub-period is 4 frames. -/
def paramsC2 : SessionParams := testParams 56 1 1 48000 32

/-- C2 scenario state: one connected port, fresh cycle
(`fLastSubCycle = -1`). -/
def stateC2 : JackPortList :=
  (JackPortList.construct paramsC2 1).SetBuffer 0
    (PortBuf.buf (List.replicate 32 0))

/-- C3 parameters: MTU 88 (packet payload 48 bytes), 3 active channels,
period 4 — one packet carries the whole period. -/
def paramsC3 : SessionParams := testParams 88 3 3 48000 4

/-- C3 sender: 8 ports, exactly ports 1, 5 and 7 connected with
distinguishable data; `GetNumPackets` has run (as it does each cycle)
so the optimized sizing fields are set. -/
def senderC3 : JackPortList :=
  (JackOptimizedPortList.GetNumPackets
    ((((JackPortList.construct paramsC3 8).SetBuffer 1
        (PortBuf.buf [11, 12, 13, 14])).SetBuffer 5
        (PortBuf.buf [51, 52, 53, 54])).SetBuffer 7
        (PortBuf.buf [71, 72, 73, 74]))).1

/-- C3 wire data produced by the sender for sub-cycle 0. -/
def netC3 : List (Nat × List Nat) :=
  (JackOptimizedPortList.RenderToNetwork senderC3 0).1

/-- C3 receiver: fresh object, buffers set exactly for the active subset
A = ⦃1, 5, 7⦄, pre-filled with the value 9 to make overwrites visible. -/
def receiverC3 : JackPortList :=
  (((JackPortList.construct paramsC3 8).SetBuffer 1
      (PortBuf.buf [9, 9, 9, 9])).SetBuffer 5
      (PortBuf.buf [9, 9, 9, 9])).SetBuffer 7
      (PortBuf.buf [9, 9, 9, 9])

/-- C3 receiver state after decoding the packet. -/
def resultC3 : JackPortList :=
  (JackOptimizedPortList.RenderFromNetwork receiverC3 netC3 0 0 3).1

/-- C8 concrete state: end of a cycle whose last sub-cycle was 7. -/
def stateC8 : JackPortList :=
  { fPeriodSize := 32, fSubPeriodSize := 4, fSubPeriodBytesSize := 16,
    fPortBuffer := [PortBuf.buf (List.replicate 32 0)], fPacketSize := 16,
    fNPorts := 1, fCycleSize := 448, fCycleDuration := 0, fLastSubCycle := 7 }

/-- C5/C9 witness state: 4 ports of which 1 and 3 are connected. -/
def stateC5s : JackPortList :=
  { fPeriodSize := 8, fSubPeriodSize := 8, fSubPeriodBytesSize := 32,
    fPortBuffer := [PortBuf.null, PortBuf.marker, PortBuf.null, PortBuf.marker],
    fPacketSize := 128, fNPorts := 4, fCycleSize := 168, fCycleDuration := 0,
    fLastSubCycle := -1 }

/-- C5 witness receiver: same port count, arbitrary stale pointer
state. -/
def stateC5r : JackPortList :=
  { fPeriodSize := 8, fSubPeriodSize := 8, fSubPeriodBytesSize := 32,
    fPortBuffer := [PortBuf.buf [1, 2], PortBuf.null, PortBuf.marker, PortBuf.null],
    fPacketSize := 128, fNPorts := 4, fCycleSize := 168, fCycleDuration := 0,
    fLastSubCycle := -1 }

/-- C5 counterexample pointer array: 32769 ports with only port 32768
connected — its index does not fit a signed 16-bit wire slot. -/
def bigBufs : List PortBuf :=
  List.replicate 32768 PortBuf.null ++ [PortBuf.marker]

/-- C5 counterexample state over `bigBufs`. -/
def stateBig : JackPortList :=
  { fPeriodSize := 64, fSubPeriodSize := 64, fSubPeriodBytesSize := 256,
    fPortBuffer := bigBufs,
    fPacketSize := 1460, fNPorts := 32769, fCycleSize := 1500,
    fCycleDuration := 0, fLastSubCycle := -1 }

/-- C4 witness values. -/
def headerEx : PacketHeader :=
  { fPacketType := [104, 101, 97, 100, 114, 0, 0], fDataType := 97,
    fDataStream := 115, fID := 1, fNumPacket := 8, fPacketSize := 1500,
    fActivePorts := 2, fCycle := 77, fSubCycle := 3, fIsLastPckt := 110 }

/-! Helper lemmas. -/

theorem bswap32_lt (x : Nat) : bswap32 x < 4294967296 := by
  unfold bswap32
  omega

theorem bswap32_bytes (b0 b1 b2 b3 : Nat) (h0 : b0 < 256) (h1 : b1 < 256)
    (h2 : b2 < 256) (h3 : b3 < 256) :
    bswap32 (b0 * 16777216 + b1 * 65536 + b2 * 256 + b3) =
      b3 * 16777216 + b2 * 65536 + b1 * 256 + b0 := by
  have key : ∀ c r : Nat, r < 256 → (r + c * 256) % 256 = r ∧ (r + c * 256) / 256 = c := by
    intro c r hr
    constructor
    · rw [Nat.add_mul_mod_self_right, Nat.mod_eq_of_lt hr]
    · rw [Nat.add_mul_div_right _ _ (by norm_num : 0 < 256), Nat.div_eq_of_lt hr,
        Nat.zero_add]
  set S := b0 * 16777216 + b1 * 65536 + b2 * 256 + b3 with hS
  have hS' : S = b3 + (b2 + (b1 + b0 * 256) * 256) * 256 := by rw [hS]; ring
  have k1 := key (b2 + (b1 + b0 * 256) * 256) b3 h3
  have k2 := key (b1 + b0 * 256) b2 h2
  have k3 := key b0 b1 h1
  have m1 : S % 256 = b3 := by rw [hS']; exact k1.1
  have d1 : S / 256 = b2 + (b1 + b0 * 256) * 256 := by rw [hS']; exact k1.2
  have m2 : S / 256 % 256 = b2 := by rw [d1]; exact k2.1
  have d2 : S / 256 / 256 = b1 + b0 * 256 := by rw [d1]; exact k2.2
  have m3 : S / 65536 % 256 = b1 := by
    rw [show (65536 : Nat) = 256 * 256 by norm_num, ← Nat.div_div_eq_div_mul, d2]
    exact k3.1
  have d3 : S / 65536 / 256 = b0 := by
    rw [show (65536 : Nat) = 256 * 256 by norm_num, ← Nat.div_div_eq_div_mul, d2]
    exact k3.2
  have m4 : S / 16777216 % 256 = b0 := by
    rw [show (16777216 : Nat) = 65536 * 256 by norm_num, ← Nat.div_div_eq_div_mul, d3,
      Nat.mod_eq_of_lt h0]
  show S % 256 * 16777216 + S / 256 % 256 * 65536 + S / 65536 % 256 * 256 +
      S / 16777216 % 256 = b3 * 16777216 + b2 * 65536 + b1 * 256 + b0
  rw [m1, m2, m3, m4]

theorem bswap32_involutive (x : Nat) (h : x < 4294967296) :
    bswap32 (bswap32 x) = x := by
  have hb : bswap32 (bswap32 x) = x / 16777216 % 256 * 16777216 +
      x / 65536 % 256 * 65536 + x / 256 % 256 * 256 + x % 256 :=
    bswap32_bytes (x % 256) (x / 256 % 256) (x / 65536 % 256) (x / 16777216 % 256)
      (Nat.mod_lt _ (by norm_num)) (Nat.mod_lt _ (by norm_num))
      (Nat.mod_lt _ (by norm_num)) (Nat.mod_lt _ (by norm_num))
  rw [hb]
  omega

theorem subPeriodOf_pow2 (ps ch k : Nat) :
    (∃ m, subPeriodOf ps ch (2 ^ k) = 2 ^ m)
      ∧ subPeriodOf ps ch (2 ^ k) ≤ 2 ^ k
      ∧ (2 ^ k / subPeriodOf ps ch (2 ^ k)) * subPeriodOf ps ch (2 ^ k) = 2 ^ k := by
  unfold subPeriodOf
  by_cases hch : ch = 0
  · simp only [hch, if_true, reduceIte]
    exact ⟨⟨k, rfl⟩, le_refl _,
      by rw [Nat.div_self (Nat.pos_pow_of_pos k (by norm_num)), one_mul]⟩
  · simp only [hch, if_false, reduceIte]
    by_cases hgt : 2 ^ log2floor (ps / (ch * sampleSize)) > 2 ^ k
    · simp only [hgt, if_true, reduceIte]
      exact ⟨⟨k, rfl⟩, le_refl _,
        by rw [Nat.div_self (Nat.pos_pow_of_pos k (by norm_num)), one_mul]⟩
    · simp only [hgt, if_false, reduceIte]
      push_neg at hgt
      have hjk : log2floor (ps / (ch * sampleSize)) ≤ k :=
        (Nat.pow_le_pow_iff_right (by norm_num)).mp hgt
      exact ⟨⟨_, rfl⟩, hgt, Nat.div_mul_cancel (pow_dvd_pow 2 hjk)⟩

theorem construct_fSubPeriodSize (p : SessionParams) (n : Nat) :
    (JackPortList.construct p n).fSubPeriodSize =
      subPeriodOf (p.fMtu - headerSize)
        (max p.fReturnAudioChannels p.fSendAudioChannels) p.fPeriodSize := by
  unfold JackPortList.construct subPeriodOf
  by_cases h : p.fSendAudioChannels = 0 ∧ p.fReturnAudioChannels = 0
  · have hmax : max p.fReturnAudioChannels p.fSendAudioChannels = 0 := by
      rw [Nat.max_eq_zero_iff]
      exact ⟨h.2, h.1⟩
    have h2 : p.fReturnAudioChannels = 0 ∧ p.fSendAudioChannels = 0 := ⟨h.2, h.1⟩
    simp [h, hmax, h2]
  · have hmax : ¬max p.fReturnAudioChannels p.fSendAudioChannels = 0 := by
      rw [Nat.max_eq_zero_iff]
      tauto
    have h2 : ¬(p.fReturnAudioChannels = 0 ∧ p.fSendAudioChannels = 0) := by tauto
    simp [h, hmax, h2]

/-! Claim theorems. -/

/-- C1 (amended): when the period size is a power of two — as in every
standard JACK configuration — the sub-period computed by the
`JackPortList` constructor and recomputed per cycle by
`JackOptimizedPortList::GetNumPackets` is a power of two, at most the
period size, and multiplied by the packet count reproduces the period
size exactly; in the concrete scenario MTU = 1500, 2 channels, 4-byte
samples, period 1024 the sub-period is 128 and `GetNumPackets` returns 8.
(As stated the claim is false for period sizes that are not powers of
two; see the counterexample.) -/
theorem C1_amended :
    (∀ (p : SessionParams) (n k : Nat),
        p.fPeriodSize = 2 ^ k →
        max p.fReturnAudioChannels p.fSendAudioChannels * sampleSize ≤
            p.fMtu - headerSize →
        (∃ m, (JackPortList.construct p n).fSubPeriodSize = 2 ^ m)
        ∧ (JackPortList.construct p n).fSubPeriodSize ≤ p.fPeriodSize
        ∧ JackPortList.GetNumPackets (JackPortList.construct p n) *
            (JackPortList.construct p n).fSubPeriodSize = p.fPeriodSize)
    ∧ (∀ (s : JackPortList) (k : Nat),
        s.fPeriodSize = 2 ^ k →
        s.countActivePorts * sampleSize ≤ s.fPacketSize →
        (∃ m, (JackOptimizedPortList.GetNumPackets s).1.fSubPeriodSize = 2 ^ m)
        ∧ (JackOptimizedPortList.GetNumPackets s).1.fSubPeriodSize ≤ s.fPeriodSize
        ∧ (JackOptimizedPortList.GetNumPackets s).2 *
            (JackOptimizedPortList.GetNumPackets s).1.fSubPeriodSize = s.fPeriodSize)
    ∧ ((JackPortList.construct paramsC1 2).fSubPeriodSize = 128
        ∧ JackPortList.GetNumPackets (JackPortList.construct paramsC1 2) = 8
        ∧ (JackOptimizedPortList.GetNumPackets stateC1).1.fSubPeriodSize = 128
        ∧ (JackOptimizedPortList.GetNumPackets stateC1).2 = 8) := by
  refine ⟨?_, ?_, ?_⟩
  · intro p n k hps _
    have h1 : (JackPortList.construct p n).fSubPeriodSize =
        subPeriodOf (p.fMtu - headerSize)
          (max p.fReturnAudioChannels p.fSendAudioChannels) (2 ^ k) := by
      rw [construct_fSubPeriodSize, hps]
    have hs := subPeriodOf_pow2 (p.fMtu - headerSize)
      (max p.fReturnAudioChannels p.fSendAudioChannels) k
    refine ⟨by rw [h1]; exact hs.1, by rw [h1, hps]; exact hs.2.1, ?_⟩
    have h2 : (JackPortList.construct p n).fPeriodSize = p.fPeriodSize := rfl
    unfold JackPortList.GetNumPackets
    rw [h2, h1, hps]
    exact hs.2.2
  · intro s k hps _
    have h1 : (JackOptimizedPortList.GetNumPackets s).1.fSubPeriodSize =
        subPeriodOf s.fPacketSize s.countActivePorts s.fPeriodSize := rfl
    have h2 : (JackOptimizedPortList.GetNumPackets s).2 =
        s.fPeriodSize / subPeriodOf s.fPacketSize s.countActivePorts s.fPeriodSize := rfl
    have hs := subPeriodOf_pow2 s.fPacketSize s.countActivePorts k
    rw [hps] at h1 h2
    refine ⟨by rw [h1]; exact hs.1, by rw [h1, hps]; exact hs.2.1, ?_⟩
    rw [h1, h2, hps]
    exact hs.2.2
  · exact ⟨by decide, by decide, by decide, by decide⟩

/-- C1 witness: the amended theorem applied at the claim's own concrete
scenario (constructor path) and at the optimized per-cycle path with two
connected ports. -/
theorem C1_witness :
    ((∃ m, (JackPortList.construct paramsC1 2).fSubPeriodSize = 2 ^ m)
      ∧ (JackPortList.construct paramsC1 2).fSubPeriodSize ≤ paramsC1.fPeriodSize
      ∧ JackPortList.GetNumPackets (JackPortList.construct paramsC1 2) *
          (JackPortList.construct paramsC1 2).fSubPeriodSize = paramsC1.fPeriodSize)
    ∧ ((∃ m, (JackOptimizedPortList.GetNumPackets stateC1).1.fSubPeriodSize = 2 ^ m)
      ∧ (JackOptimizedPortList.GetNumPackets stateC1).1.fSubPeriodSize ≤
          stateC1.fPeriodSize
      ∧ (JackOptimizedPortList.GetNumPackets stateC1).2 *
          (JackOptimizedPortList.GetNumPackets stateC1).1.fSubPeriodSize =
          stateC1.fPeriodSize) :=
  ⟨C1_amended.1 paramsC1 2 10 (by decide) (by decide),
   C1_amended.2.1 stateC1 10 (by decide) (by decide)⟩

/-- C1 counterexample: MTU 1500 holds at least one sample per channel for
4 channels, yet with period size 96 the computed sub-period is 64 and
`GetNumPackets * fSubPeriodSize = 64 ≠ 96`, refuting the claim as
stated. -/
theorem C1_counterexample :
    max paramsC1x.fReturnAudioChannels paramsC1x.fSendAudioChannels * sampleSize ≤
        paramsC1x.fMtu - headerSize
    ∧ (JackPortList.construct paramsC1x 4).fSubPeriodSize = 64
    ∧ JackPortList.GetNumPackets (JackPortList.construct paramsC1x 4) *
        (JackPortList.construct paramsC1x 4).fSubPeriodSize ≠
        (JackPortList.construct paramsC1x 4).fPeriodSize := by
  refine ⟨by decide, by decide, by decide⟩

/-- C2 (amended): for the base `JackPortList::RenderFromNetwork` the
claim holds verbatim — `NET_PACKET_ERROR` is returned iff the incoming
sub-cycle differs from `fLastSubCycle + 1`, the data is copied in either
case, and `fLastSubCycle` is resynchronized unconditionally; for
`JackOptimizedPortList::RenderFromNetwork` the same holds only when the
packet announces at least one active port (`port_num > 0`) — with
`port_num == 0` the check and resynchronization are skipped entirely.
The [0,1,3,4] scenario reports the mismatch exactly once, at 3, and
leaves `fLastSubCycle = 4`. -/
theorem C2_amended :
    (∀ (s : JackPortList) (net : List Nat) (cycle sub pn : Nat),
        ((JackPortList.RenderFromNetwork s net cycle sub pn).2 = NET_PACKET_ERROR ↔
          (sub : Int) ≠ s.fLastSubCycle + 1)
        ∧ (JackPortList.RenderFromNetwork s net cycle sub pn).1.fLastSubCycle = (sub : Int)
        ∧ (JackPortList.RenderFromNetwork s net cycle sub pn).1.fPortBuffer =
            copyAllPorts s.fPortBuffer net s.fNPorts (sub * s.fSubPeriodSize)
              (s.fSubPeriodBytesSize / sampleSize) id)
    ∧ (∀ (s : JackPortList) (net : List (Nat × List Nat)) (cycle sub pn : Nat),
        0 < pn →
        ((JackOptimizedPortList.RenderFromNetwork s net cycle sub pn).2 =
            NET_PACKET_ERROR ↔ (sub : Int) ≠ s.fLastSubCycle + 1)
        ∧ (JackOptimizedPortList.RenderFromNetwork s net cycle sub pn).1.fLastSubCycle =
            (sub : Int))
    ∧ ((feedSubCycles stateC2 (List.replicate 4 7) [0, 1, 3, 4]).2 =
          [0, 0, NET_PACKET_ERROR, 0]
        ∧ (feedSubCycles stateC2 (List.replicate 4 7) [0, 1, 3, 4]).1.fLastSubCycle = 4) := by
  refine ⟨?_, ?_, by decide, by decide⟩
  · intro s net cycle sub pn
    refine ⟨?_, rfl, rfl⟩
    unfold JackPortList.RenderFromNetwork
    by_cases h : (sub : Int) ≠ s.fLastSubCycle + 1
    · simp [h, NET_PACKET_ERROR]
    · simp [h, NET_PACKET_ERROR]
  · intro s net cycle sub pn hpn
    unfold JackOptimizedPortList.RenderFromNetwork
    simp only [hpn, if_true, reduceIte]
    by_cases h : (sub : Int) ≠ s.fLastSubCycle + 1
    · simp [h, NET_PACKET_ERROR]
    · simp [h, NET_PACKET_ERROR]

/-- C2 witness: the optimized receive path at a concrete out-of-order
packet with one active port. -/
theorem C2_witness :
    ((JackOptimizedPortList.RenderFromNetwork stateC2 [] 0 5 1).2 =
        NET_PACKET_ERROR ↔ ((5 : Nat) : Int) ≠ stateC2.fLastSubCycle + 1)
    ∧ (JackOptimizedPortList.RenderFromNetwork stateC2 [] 0 5 1).1.fLastSubCycle =
        ((5 : Nat) : Int) :=
  C2_amended.2.1 stateC2 [] 0 5 1 (by decide)

/-- C2 counterexample: an optimized-path packet with `port_num = 0` and a
skipped sub-cycle (5 after -1) returns 0 — not `NET_PACKET_ERROR` — and
leaves `fLastSubCycle` untouched, refuting the claim's unconditional
"if and only if" and its "lastSubCycle is set to s regardless". -/
theorem C2_counterexample :
    (5 : Int) ≠ stateC2.fLastSubCycle + 1
    ∧ (JackOptimizedPortList.RenderFromNetwork stateC2 [] 0 5 0).2 ≠ NET_PACKET_ERROR
    ∧ (JackOptimizedPortList.RenderFromNetwork stateC2 [] 0 5 0).1.fLastSubCycle ≠
        (5 : Int) := by
  refine ⟨by decide, by decide, by decide⟩

/-- C3 (code bug evidence): with N = 8 ports, active subset A = ⦃1,5,7⦄
on the sender and a fresh receiver whose buffers for exactly A are set,
`RenderToNetwork` emits the correct three slots, but
`RenderFromNetwork` — whose copy loop guards on the slot POSITION
(`fPortBuffer[port_index]`) instead of the decoded target port
(`fPortBuffer[active_port]`, cf. the comment "Only copy to active
ports") — delivers only channel 5's data and leaves channels 1 and 7
zero-filled, contradicting the claim and the documented intent. -/
theorem C3_evidence :
    netC3 = [(1, [11, 12, 13, 14]), (5, [51, 52, 53, 54]), (7, [71, 72, 73, 74])]
    ∧ resultC3.fPortBuffer.getD 5 PortBuf.null = PortBuf.buf [51, 52, 53, 54]
    ∧ resultC3.fPortBuffer.getD 1 PortBuf.null = PortBuf.buf [0, 0, 0, 0]
    ∧ resultC3.fPortBuffer.getD 7 PortBuf.null = PortBuf.buf [0, 0, 0, 0]
    ∧ (JackOptimizedPortList.RenderFromNetwork receiverC3 netC3 0 0 3).2 = 0 := by
  refine ⟨by decide, by decide, by decide, by decide, by decide⟩

/-- C4: byte-order round trip — decoding the network-order encoding of a
valid `SessionParams` reproduces it field by field, and likewise for
`PacketHeader` (conversions modelled from spec §4.1/§6, as their
implementations live outside the provided sources). -/
theorem C4_roundtrip :
    (∀ p : SessionParams, ValidSessionParams p →
        SessionParamsNToH (SessionParamsHToN p) = p)
    ∧ (∀ h : PacketHeader, ValidPacketHeader h →
        PacketHeaderNToH (PacketHeaderHToN h) = h) := by
  constructor
  · intro p hv
    unfold ValidSessionParams at hv
    obtain ⟨v1, v2, v3, v4, v5, v6, v7, v8, v9, v10, v11, v12, v13, v14⟩ := hv
    unfold SessionParamsNToH SessionParamsHToN
    cases p
    simp_all [bswap32_involutive]
  · intro h hv
    unfold ValidPacketHeader at hv
    obtain ⟨v1, v2, v3, v4, v5, v6, v7⟩ := hv
    unfold PacketHeaderNToH PacketHeaderHToN
    cases h
    simp_all [bswap32_involutive]

/-- C4 witness: the round trip at concrete session parameters and a
concrete packet header. -/
theorem C4_witness :
    SessionParamsNToH (SessionParamsHToN paramsC1) = paramsC1
    ∧ PacketHeaderNToH (PacketHeaderHToN headerEx) = headerEx :=
  ⟨C4_roundtrip.1 paramsC1 (by unfold ValidSessionParams; decide),
   C4_roundtrip.2 headerEx (by unfold ValidPacketHeader; decide)⟩

/-- C7: with zero audio channels in both directions at construction, and
with zero active ports in the optimized per-cycle sizing, the whole
period is treated as one sub-cycle: `fSubPeriodSize = fPeriodSize`. -/
theorem C7_zero_channels :
    (∀ (p : SessionParams) (n : Nat),
        p.fSendAudioChannels = 0 → p.fReturnAudioChannels = 0 →
        (JackPortList.construct p n).fSubPeriodSize = p.fPeriodSize)
    ∧ (∀ s : JackPortList, s.countActivePorts = 0 →
        (JackOptimizedPortList.GetNumPackets s).1.fSubPeriodSize = s.fPeriodSize) := by
  constructor
  · intro p n h1 h2
    unfold JackPortList.construct
    simp [h1, h2]
  · intro s h
    show subPeriodOf s.fPacketSize s.countActivePorts s.fPeriodSize = s.fPeriodSize
    rw [h]
    unfold subPeriodOf
    simp

/-- C7 witness: a session with zero channels each way, period 1024. -/
theorem C7_witness :
    (JackPortList.construct (testParams 1500 0 0 48000 1024) 2).fSubPeriodSize =
        (testParams 1500 0 0 48000 1024).fPeriodSize
    ∧ (JackOptimizedPortList.GetNumPackets
          (JackPortList.construct (testParams 1500 0 0 48000 1024) 2)).1.fSubPeriodSize =
        (JackPortList.construct (testParams 1500 0 0 48000 1024) 2).fPeriodSize :=
  ⟨C7_zero_channels.1 (testParams 1500 0 0 48000 1024) 2 rfl rfl,
   C7_zero_channels.2 (JackPortList.construct (testParams 1500 0 0 48000 1024) 2)
     (by decide)⟩

/-- C8 (code bug evidence): the little-endian
`JackPortList::RenderToJackPorts` resets `fLastSubCycle` to -1 so the
next cycle's sub-cycle 0 is accepted, but the big-endian branch's body is
empty: after a cycle ending at sub-cycle 7 it leaves `fLastSubCycle = 7`
and the next cycle's first packet is spuriously reported as
`NET_PACKET_ERROR`. -/
theorem C8_evidence :
    (JackPortList.RenderToJackPortsBE stateC8).fLastSubCycle = 7
    ∧ (JackPortList.RenderFromNetworkBE (JackPortList.RenderToJackPortsBE stateC8)
        (List.replicate 4 0) 1 0 1).2 = NET_PACKET_ERROR
    ∧ (JackPortList.RenderToJackPorts stateC8).fLastSubCycle = -1
    ∧ (JackPortList.RenderFromNetwork (JackPortList.RenderToJackPorts stateC8)
        (List.replicate 4 0) 1 0 1).2 = 0 := by
  refine ⟨by decide, by decide, by decide, by decide⟩

/-- C10: `fCycleSize` and `fCycleDuration` are fixed at construction from
the session's configured values (`MTU * (periodSize / fSubPeriodSize)`
and `fSubPeriodSize / sampleRate`), and
`JackOptimizedPortList::GetNumPackets` — which rewrites `fSubPeriodSize`
and `fSubPeriodBytesSize` from the live active-port count every cycle —
leaves both of them, and hence `GetCycleSize`/`GetCycleDuration`,
unchanged. -/
theorem C10_cycle_size_fixed :
    (∀ (p : SessionParams) (n : Nat),
        (JackPortList.construct p n).fCycleSize =
            p.fMtu * (p.fPeriodSize / (JackPortList.construct p n).fSubPeriodSize)
        ∧ (JackPortList.construct p n).fCycleDuration =
            (((JackPortList.construct p n).fSubPeriodSize : Rat) / (p.fSampleRate : Rat)))
    ∧ (∀ s : JackPortList,
        (JackOptimizedPortList.GetNumPackets s).1.fCycleSize = s.fCycleSize
        ∧ (JackOptimizedPortList.GetNumPackets s).1.fCycleDuration = s.fCycleDuration
        ∧ (JackOptimizedPortList.GetNumPackets s).1.fSubPeriodSize =
            subPeriodOf s.fPacketSize s.countActivePorts s.fPeriodSize
        ∧ (JackOptimizedPortList.GetNumPackets s).1.fSubPeriodBytesSize =
            subPeriodOf s.fPacketSize s.countActivePorts s.fPeriodSize * sampleSize + 4
        ∧ JackPortList.GetCycleSize (JackOptimizedPortList.GetNumPackets s).1 =
            JackPortList.GetCycleSize s
        ∧ JackPortList.GetCycleDuration (JackOptimizedPortList.GetNumPackets s).1 =
            JackPortList.GetCycleDuration s) :=
  ⟨fun _ _ => ⟨rfl, rfl⟩, fun _ => ⟨rfl, rfl, rfl, rfl, rfl, rfl⟩⟩

/-! Helper lemmas for the active-port set encoding. -/

theorem getD_set_self (l : List PortBuf) (i : Nat) (a : PortBuf) (h : i < l.length) :
    (l.set i a).getD i PortBuf.null = a := by
  induction l generalizing i with
  | nil => simp at h
  | cons b tl ih =>
    cases i with
    | zero => rfl
    | succ i =>
      show (tl.set i a).getD i PortBuf.null = a
      exact ih i (by simp only [List.length_cons] at h; omega)

theorem getD_set_other (l : List PortBuf) (i j : Nat) (a : PortBuf) (h : i ≠ j) :
    (l.set i a).getD j PortBuf.null = l.getD j PortBuf.null := by
  induction l generalizing i j with
  | nil => rfl
  | cons b tl ih =>
    cases i with
    | zero =>
      cases j with
      | zero => exact absurd rfl h
      | succ j => rfl
    | succ i =>
      cases j with
      | zero => rfl
      | succ j =>
        show (tl.set i a).getD j PortBuf.null = tl.getD j PortBuf.null
        exact ih i j (fun hc => h (by rw [hc]))

theorem getD_map_null (l : List PortBuf) (c : Nat) :
    (l.map (fun _ => PortBuf.null)).getD c PortBuf.null = PortBuf.null := by
  induction l generalizing c with
  | nil => rfl
  | cons b tl ih =>
    cases c with
    | zero => rfl
    | succ c => exact ih c

theorem activePortStep_length (N : Nat) (bufs : List PortBuf) (v : Int) :
    (activePortStep N bufs v).length = bufs.length := by
  unfold activePortStep
  split
  · rw [List.length_set]
  · rfl

theorem activePortStep_getD_marker (N : Nat) (bufs : List PortBuf) (v : Int) (c : Nat)
    (hc : c < bufs.length) :
    ((activePortStep N bufs v).getD c PortBuf.null = PortBuf.marker ↔
      ((0 ≤ v ∧ v < (N : Int)) ∧ v.toNat = c) ∨
        bufs.getD c PortBuf.null = PortBuf.marker) := by
  unfold activePortStep
  by_cases hv : 0 ≤ v ∧ v < (N : Int)
  · rw [if_pos hv]
    by_cases heq : v.toNat = c
    · subst heq
      rw [getD_set_self bufs v.toNat PortBuf.marker hc]
      simp [hv]
    · rw [getD_set_other bufs v.toNat c PortBuf.marker heq]
      simp [heq]
  · rw [if_neg hv]
    simp [hv]

theorem foldl_activePortStep_cases (N : Nat) (L : List Int) (c : Nat) :
    ∀ bufs : List PortBuf, c < bufs.length →
      ((L.foldl (activePortStep N) bufs).getD c PortBuf.null = PortBuf.marker ∨
        (L.foldl (activePortStep N) bufs).getD c PortBuf.null =
          bufs.getD c PortBuf.null) := by
  induction L with
  | nil =>
    intro bufs _
    right
    rfl
  | cons v tl ih =>
    intro bufs hc
    rw [List.foldl_cons]
    rcases ih (activePortStep N bufs v)
        (by rw [activePortStep_length]; exact hc) with h | h
    · left
      exact h
    · rw [h]
      unfold activePortStep
      by_cases hv : 0 ≤ v ∧ v < (N : Int)
      · rw [if_pos hv]
        by_cases hcv : v.toNat = c
        · subst hcv
          left
          exact getD_set_self bufs v.toNat PortBuf.marker hc
        · right
          exact getD_set_other bufs v.toNat c PortBuf.marker hcv
      · rw [if_neg hv]
        right
        rfl

theorem foldl_activePortStep_marker (N : Nat) (L : List Int) (c : Nat) :
    ∀ bufs : List PortBuf, c < bufs.length →
      ((L.foldl (activePortStep N) bufs).getD c PortBuf.null = PortBuf.marker ↔
        (∃ v ∈ L, (0 ≤ v ∧ v < (N : Int)) ∧ v.toNat = c) ∨
          bufs.getD c PortBuf.null = PortBuf.marker) := by
  induction L with
  | nil =>
    intro bufs _
    simp
  | cons v tl ih =>
    intro bufs hc
    rw [List.foldl_cons,
      ih (activePortStep N bufs v) (by rw [activePortStep_length]; exact hc),
      activePortStep_getD_marker N bufs v c hc]
    simp only [List.mem_cons]
    constructor
    · rintro (⟨w, hw, hwp⟩ | hval | hbase)
      · exact Or.inl ⟨w, Or.inr hw, hwp⟩
      · exact Or.inl ⟨v, Or.inl rfl, hval⟩
      · exact Or.inr hbase
    · rintro (⟨w, rfl | hw, hwp⟩ | hbase)
      · right
        left
        exact hwp
      · left
        exact ⟨w, hw, hwp⟩
      · right
        right
        exact hbase

/-- Decoding characterization: after `ActivePortsFromNetwork` with a full
index list, port `c` is active exactly when some received value is a
valid index (within `[0, fNPorts)`) denoting `c`. -/
theorem decode_active_iff (s : JackPortList) (net : List Int) (pn : Nat)
    (hpn : pn = net.length) (c : Nat) (hc : c < s.fPortBuffer.length) :
    (((JackOptimizedPortList.ActivePortsFromNetwork s net pn).fPortBuffer.getD c
        PortBuf.null).isActive = true ↔
      ∃ v ∈ net, (0 ≤ v ∧ v < (s.fNPorts : Int)) ∧ v.toNat = c) := by
  have hres : (JackOptimizedPortList.ActivePortsFromNetwork s net pn).fPortBuffer =
      net.foldl (activePortStep s.fNPorts) (s.fPortBuffer.map fun _ => PortBuf.null) := by
    unfold JackOptimizedPortList.ActivePortsFromNetwork
    rw [hpn, List.take_length]
  rw [hres]
  have hclen : c < (s.fPortBuffer.map fun _ => PortBuf.null).length := by
    rw [List.length_map]
    exact hc
  have hcase := foldl_activePortStep_cases s.fNPorts net c _ hclen
  have hmark := foldl_activePortStep_marker s.fNPorts net c _ hclen
  rw [getD_map_null,
    or_iff_left (by decide : ¬PortBuf.null = PortBuf.marker)] at hmark
  constructor
  · intro hact
    rcases hcase with hm | hnull
    · exact hmark.mp hm
    · rw [getD_map_null] at hnull
      rw [hnull] at hact
      exact absurd hact (by decide)
  · intro hex
    rw [hmark.mpr hex]
    rfl

theorem countActive_cons (b : PortBuf) (tl : List PortBuf) :
    countActive (b :: tl) = (if b.isActive = true then 1 else 0) + countActive tl := by
  unfold countActive
  rw [List.filter_cons]
  by_cases hb : b.isActive = true
  · simp [hb, Nat.add_comm]
  · simp [hb]

theorem encodeActivePorts_length (bufs : List PortBuf) (i : Nat) :
    (encodeActivePorts bufs i).length = countActive bufs := by
  induction bufs generalizing i with
  | nil => rfl
  | cons b tl ih =>
    simp only [encodeActivePorts]
    by_cases hb : b.isActive = true
    · rw [if_pos hb, List.length_cons, ih (i + 1), countActive_cons, if_pos hb]
      omega
    · rw [if_neg hb, ih (i + 1), countActive_cons, if_neg hb]
      omega

theorem mem_encodeActivePorts (bufs : List PortBuf) (i : Nat) (v : Int) :
    v ∈ encodeActivePorts bufs i ↔
      ∃ k, k < bufs.length ∧ (bufs.getD k PortBuf.null).isActive = true ∧
        v = toInt16 (i + k) := by
  induction bufs generalizing i with
  | nil => simp [encodeActivePorts]
  | cons b tl ih =>
    simp only [encodeActivePorts]
    by_cases hb : b.isActive = true
    · rw [if_pos hb, List.mem_cons, ih (i + 1)]
      constructor
      · rintro (rfl | ⟨k, hk, hact, rfl⟩)
        · exact ⟨0, by simp, by rw [List.getD_cons_zero]; exact hb, by rw [Nat.add_zero]⟩
        · refine ⟨k + 1, by simp only [List.length_cons]; omega, ?_, ?_⟩
          · rw [List.getD_cons_succ]
            exact hact
          · rw [show i + (k + 1) = i + 1 + k from by omega]
      · rintro ⟨k, hk, hact, rfl⟩
        cases k with
        | zero =>
          left
          rw [Nat.add_zero]
        | succ k =>
          right
          rw [List.getD_cons_succ] at hact
          refine ⟨k, by simp only [List.length_cons] at hk; omega, hact, ?_⟩
          rw [show i + (k + 1) = i + 1 + k from by omega]
    · rw [if_neg hb, ih (i + 1)]
      constructor
      · rintro ⟨k, hk, hact, rfl⟩
        refine ⟨k + 1, by simp only [List.length_cons]; omega, ?_, ?_⟩
        · rw [List.getD_cons_succ]
          exact hact
        · rw [show i + (k + 1) = i + 1 + k from by omega]
      · rintro ⟨k, hk, hact, rfl⟩
        cases k with
        | zero =>
          rw [List.getD_cons_zero] at hact
          exact absurd hact hb
        | succ k =>
          rw [List.getD_cons_succ] at hact
          refine ⟨k, by simp only [List.length_cons] at hk; omega, hact, ?_⟩
          rw [show i + (k + 1) = i + 1 + k from by omega]

theorem toInt16_small (c : Nat) (h : c < 32768) : toInt16 c = (c : Int) := by
  unfold toInt16
  rw [Nat.mod_eq_of_lt (by omega)]
  simp [h]

theorem encodeActivePorts_replicate_null (n : Nat) (rest : List PortBuf) (i : Nat) :
    encodeActivePorts (List.replicate n PortBuf.null ++ rest) i =
      encodeActivePorts rest (i + n) := by
  induction n generalizing i with
  | zero => rfl
  | succ n ih =>
    rw [List.replicate_succ, List.cons_append]
    simp only [encodeActivePorts, PortBuf.isActive]
    rw [if_neg (by decide), ih (i + 1)]
    congr 1
    omega

theorem countActive_map_null (l : List PortBuf) :
    countActive (l.map fun _ => PortBuf.null) = 0 := by
  induction l with
  | nil => rfl
  | cons b tl ih =>
    rw [List.map_cons, countActive_cons, ih]
    decide

theorem countActive_replicate_null (n : Nat) :
    countActive (List.replicate n PortBuf.null) = 0 := by
  induction n with
  | zero => rfl
  | succ n ih =>
    rw [List.replicate_succ, countActive_cons, ih]
    decide

theorem countActive_append (l1 l2 : List PortBuf) :
    countActive (l1 ++ l2) = countActive l1 + countActive l2 := by
  unfold countActive
  rw [List.filter_append, List.length_append]

theorem activePortsAssertOk_iff (bufs : List PortBuf) :
    ∀ cnt : Nat, (activePortsAssertOk bufs cnt = true ↔
      (countActive bufs = 0 ∨ cnt + countActive bufs < 512)) := by
  induction bufs with
  | nil =>
    intro cnt
    simp [activePortsAssertOk, countActive]
  | cons b tl ih =>
    intro cnt
    simp only [activePortsAssertOk]
    rw [countActive_cons]
    by_cases hb : b.isActive = true
    · rw [if_pos hb, if_pos hb, Bool.and_eq_true, decide_eq_true_eq, ih (cnt + 1)]
      omega
    · rw [if_neg hb, if_neg hb, ih cnt]
      omega

/-- C5 (amended): for port counts N ≤ 32768 — indices must fit the signed
16-bit wire slots used by the encoding — `ActivePortsToNetwork` followed
by `ActivePortsFromNetwork` on a receiver with the same port count
reproduces the active set exactly: a channel is active after decoding iff
it was active on the sender.  (For N > 32768 the claim fails; see the
counterexample.) -/
theorem C5_amended (s r : JackPortList)
    (hs : s.fPortBuffer.length = s.fNPorts)
    (hr : r.fPortBuffer.length = r.fNPorts)
    (hN : r.fNPorts = s.fNPorts)
    (hbound : s.fNPorts ≤ 32768)
    (c : Nat) (hc : c < s.fNPorts) :
    (((JackOptimizedPortList.ActivePortsFromNetwork r
        (JackOptimizedPortList.ActivePortsToNetwork s).1
        (JackOptimizedPortList.ActivePortsToNetwork s).2).fPortBuffer.getD c
          PortBuf.null).isActive = true ↔
      (s.fPortBuffer.getD c PortBuf.null).isActive = true) := by
  have hpn : (JackOptimizedPortList.ActivePortsToNetwork s).2 =
      (JackOptimizedPortList.ActivePortsToNetwork s).1.length := rfl
  rw [decode_active_iff r _ _ hpn c (by rw [hr, hN]; exact hc)]
  have hnet : (JackOptimizedPortList.ActivePortsToNetwork s).1 =
      encodeActivePorts s.fPortBuffer 0 := rfl
  rw [hnet, hN]
  constructor
  · rintro ⟨v, hvmem, hval, hvc⟩
    rw [mem_encodeActivePorts] at hvmem
    obtain ⟨k, hk, hact, rfl⟩ := hvmem
    rw [Nat.zero_add] at hvc
    have hk32 : k < 32768 := by
      rw [hs] at hk
      omega
    rw [toInt16_small k hk32] at hvc
    have hkc : k = c := by
      rw [Int.toNat_natCast] at hvc
      exact hvc
    rw [← hkc]
    exact hact
  · intro hact
    have hc32 : c < 32768 := by omega
    refine ⟨toInt16 c, ?_, ?_, ?_⟩
    · rw [mem_encodeActivePorts]
      refine ⟨c, by rw [hs]; exact hc, hact, by rw [Nat.zero_add]⟩
    · rw [toInt16_small c hc32]
      exact ⟨Int.natCast_nonneg c, by exact_mod_cast hc⟩
    · rw [toInt16_small c hc32, Int.toNat_natCast]

/-- C5 witness: 4 ports with ⦃1, 3⦄ active round-trip through the wire
encoding; channel 1 is active on the receiver iff on the sender. -/
theorem C5_witness :
    (((JackOptimizedPortList.ActivePortsFromNetwork stateC5r
        (JackOptimizedPortList.ActivePortsToNetwork stateC5s).1
        (JackOptimizedPortList.ActivePortsToNetwork stateC5s).2).fPortBuffer.getD 1
          PortBuf.null).isActive = true ↔
      (stateC5s.fPortBuffer.getD 1 PortBuf.null).isActive = true) :=
  C5_amended stateC5s stateC5r rfl rfl rfl (by decide) 1 (by decide)

/-- C5 counterexample: with N = 32769 ports and active set ⦃32768⦄, the
encoder stores the index as the signed 16-bit value -32768; the decoder
rejects it as out of range, so the round trip yields an empty active set
instead of reproducing A, refuting the claim for arbitrary N. -/
theorem C5_counterexample :
    (JackOptimizedPortList.ActivePortsToNetwork stateBig).1 = [-32768]
    ∧ countActive ((JackOptimizedPortList.ActivePortsFromNetwork stateBig
        (JackOptimizedPortList.ActivePortsToNetwork stateBig).1
        (JackOptimizedPortList.ActivePortsToNetwork stateBig).2).fPortBuffer) = 0
    ∧ countActive stateBig.fPortBuffer = 1 := by
  have hbuf : stateBig.fPortBuffer = bigBufs := rfl
  have hbig : bigBufs = List.replicate 32768 PortBuf.null ++ [PortBuf.marker] :=
    rfl
  have h1 : ∀ t : JackPortList, (JackOptimizedPortList.ActivePortsToNetwork t).1 =
      encodeActivePorts t.fPortBuffer 0 := fun t => rfl
  have henc : (JackOptimizedPortList.ActivePortsToNetwork stateBig).1 = [-32768] := by
    rw [h1 stateBig, hbuf, hbig, encodeActivePorts_replicate_null]
    decide
  have h2 : ∀ t : JackPortList, (JackOptimizedPortList.ActivePortsToNetwork t).2 =
      (encodeActivePorts t.fPortBuffer 0).length := fun t => rfl
  have henc2 : (JackOptimizedPortList.ActivePortsToNetwork stateBig).2 = 1 := by
    rw [h2 stateBig, hbuf, hbig, encodeActivePorts_replicate_null]
    decide
  have hdec : (JackOptimizedPortList.ActivePortsFromNetwork stateBig
      (JackOptimizedPortList.ActivePortsToNetwork stateBig).1
      (JackOptimizedPortList.ActivePortsToNetwork stateBig).2).fPortBuffer =
      stateBig.fPortBuffer.map fun _ => PortBuf.null := by
    unfold JackOptimizedPortList.ActivePortsFromNetwork
    rw [henc, henc2]
    show activePortStep stateBig.fNPorts
      (stateBig.fPortBuffer.map fun _ => PortBuf.null) (-32768) = _
    unfold activePortStep
    rw [if_neg (by decide)]
  refine ⟨henc, ?_, ?_⟩
  · rw [hdec, countActive_map_null]
  · rw [hbuf, hbig, countActive_append, countActive_replicate_null]
    decide

/-- C6: `ActivePortsFromNetwork` marks a channel active iff some received
entry is an index in `[0, portCount)` denoting it: each out-of-range
index is merely skipped (reported via `jack_error`) without aborting the
call, so the remaining entries still take effect and one bad index costs
only its own channel; concretely, decoding [0, 99, 2] on 4 ports
activates exactly channels 0 and 2. -/
theorem C6_decode_validates :
    (∀ (s : JackPortList) (net : List Int) (pn : Nat),
        pn = net.length → ∀ c : Nat, c < s.fPortBuffer.length →
        (((JackOptimizedPortList.ActivePortsFromNetwork s net pn).fPortBuffer.getD c
            PortBuf.null).isActive = true ↔
          ∃ v ∈ net, (0 ≤ v ∧ v < (s.fNPorts : Int)) ∧ v.toNat = c))
    ∧ (JackOptimizedPortList.ActivePortsFromNetwork stateC5r [0, 99, 2] 3).fPortBuffer.map
        PortBuf.isActive = [true, false, true, false] := by
  constructor
  · intro s net pn hpn c hc
    exact decode_active_iff s net pn hpn c hc
  · decide

/-- C6 witness: decoding [0, 99, 2] — entry 99 out of range for 4
ports — still activates channel 2, the entry after the bad one. -/
theorem C6_witness :
    ((JackOptimizedPortList.ActivePortsFromNetwork stateC5r [0, 99, 2] 3).fPortBuffer.getD 2
        PortBuf.null).isActive = true ↔
      ∃ v ∈ [(0 : Int), 99, 2], (0 ≤ v ∧ v < (stateC5r.fNPorts : Int)) ∧ v.toNat = 2 :=
  C6_decode_validates.1 stateC5r [0, 99, 2] 3 rfl 2 (by decide)

/-- C9 (implicit): the `assert(port_num < 512)` executed after each
appended port makes `ActivePortsToNetwork` assertion-valid exactly when
the number of active ports is below 512 — a limit the spec never
states — and the returned `port_num` is that active count. -/
theorem C9_assert_limit (s : JackPortList) :
    (activePortsAssertOk s.fPortBuffer 0 = true ↔ countActive s.fPortBuffer < 512)
    ∧ (JackOptimizedPortList.ActivePortsToNetwork s).2 = countActive s.fPortBuffer := by
  constructor
  · rw [activePortsAssertOk_iff s.fPortBuffer 0]
    omega
  · show (encodeActivePorts s.fPortBuffer 0).length = countActive s.fPortBuffer
    exact encodeActivePorts_length s.fPortBuffer 0

end JackNet
